import Mathlib

/-
Shallow embedding of `src/main.py` (Windows Wallpaper Changer).

The program is an interactive, single-run flow: it reads a choice
(local file / web URL / raw URL) from the first prompt, optionally
downloads an image over HTTP, checks the resolved file exists, invokes
the platform wallpaper call, and deletes the downloaded file when the
call succeeded.

Modelling conventions:
  * The outside world (HTTP responses, the platform wallpaper call,
    write/delete faults, `mimetypes.guess_extension`) is an explicit
    `Env` of response functions; the filesystem is an explicit
    association list from paths to byte lists, threaded through the run.
  * Side effects are recorded as an `Event` trace (HTTP GET, file
    write, file remove, existence check, wallpaper call, sleep).
  * Exceptions are modelled by outcome values: `sys.exit(1)` raises
    `SystemExit`, which none of `main`'s handlers catch (they catch
    `KeyboardInterrupt`, `requests.RequestException` and `Exception`),
    so it is the distinguished outcome `invalidChoiceExit`; a
    `requests.RequestException` propagating out of the download is the
    outcome `netError`; any other exception is `otherError`.
  * Python `str.strip` / `str.lower` are modelled over `List Char`
    (`pyStrip`, `pyLower`); the exact whitespace set and Unicode case
    table are immaterial to the claims.
  * Path separators are abstracted to `/` in `pathJoin`; `abspath`
    models `os.path.abspath` without normalisation, which no claim
    observes.
  * Real time does not exist in the model: the 15-second request
    timeout is one of the transport failures folded into
    `Env.http url = .error ()`, and `time.sleep(1.5)` is the trace
    event `Event.sleep`.
-/

namespace Wallpaper

/-- Python `s.strip()`: drop whitespace from both ends. -/
def pyStrip (s : String) : String :=
  ⟨((s.data.dropWhile Char.isWhitespace).reverse.dropWhile Char.isWhitespace).reverse⟩

/-- Python `s.lower()`. -/
def pyLower (s : String) : String :=
  ⟨s.data.map Char.toLower⟩

/-- Python `s.startswith(pre)`. -/
def strStartsWith (pre s : String) : Bool :=
  s.data.take pre.data.length == pre.data

/-- Model of `os.path.join(a, b)` for a bare filename `b` (separator
abstracted). -/
def pathJoin (a b : String) : String :=
  a ++ "/" ++ b

/-- Windows-style test for an absolute path: rooted (`/` or `\`, which
also covers UNC paths) or carrying a drive letter (`C:...`). -/
def isAbsPath (p : String) : Bool :=
  match p.data with
  | [] => false
  | [c] => c = '/' || c = '\\'
  | c :: c2 :: _ => c = '/' || c = '\\' || c2 = ':'

/-- Model of `os.path.abspath`: absolute paths are kept, relative ones are joined
onto the current working directory (normalisation omitted; no claim
observes it). -/
def abspath (cwd p : String) : String :=
  if isAbsPath p then p else pathJoin cwd p

/-- Characters allowed in a URL scheme by `urllib.parse.urlsplit`. -/
def schemeChar (c : Char) : Bool :=
  c.isAlphanum || c = '+' || c = '-' || c = '.'

/-- Scheme removal of `urllib.parse.urlsplit`: if the first `:` is preceded
by a non-empty run of scheme characters, drop through it. -/
def splitScheme (cs : List Char) : List Char :=
  match cs.findIdx? (· = ':') with
  | none => cs
  | some i => if 0 < i && (cs.take i).all schemeChar then cs.drop (i + 1) else cs

/-- Model of `urllib.parse.urlparse(url).path`: strip the scheme, strip a
`//netloc` part (which extends to the first `/`, `?` or `#`), and cut
the rest at the first `?` or `#`. -/
def urlparsePath (url : String) : String :=
  let cs := splitScheme url.data
  let cs := if cs.take 2 = ['/', '/']
            then (cs.drop 2).dropWhile (fun c => !(c = '/' || c = '?' || c = '#'))
            else cs
  ⟨cs.takeWhile (fun c => !(c = '?' || c = '#'))⟩

/-- Model of `os.path.basename`: the part after the last path separator
(`/` or, on Windows, `\`). -/
def basenameStr (p : String) : String :=
  ⟨(p.data.reverse.takeWhile (fun c => !(c = '/' || c = '\\'))).reverse⟩

/-- Model of `content_type.split(";")[0].strip()`. -/
def ctClean (contentType : String) : String :=
  pyStrip ⟨contentType.data.takeWhile (fun c => !(c = ';'))⟩

/-- Filename resolution of `download_web_image` (main.py lines 55-62):
take `os.path.basename(urlparse(url).path)`; if that is empty or has no
dot, synthesize `downloaded_wallpaper` + an extension guessed from the
Content-Type header (`mimetypes.guess_extension`, modelled by the
`guessExt` parameter; Python's `... or ".jpg"` falls back on `None` and
on the empty string). -/
def deriveFileName (guessExt : String → Option String) (url contentType : String) : String :=
  let fileName := basenameStr (urlparsePath url)
  if fileName.data = [] || !(fileName.data.contains '.') then
    let ext := match guessExt (ctClean contentType) with
      | none => ".jpg"
      | some e => if e.data = [] then ".jpg" else e
    "downloaded_wallpaper" ++ ext
  else fileName

/-- The characters after the last `.` of a string (empty when there is
no dot, or nothing follows the last dot). -/
def extAfterLastDot (s : String) : String :=
  if s.data.contains '.' then ⟨(s.data.reverse.takeWhile (fun c => !(c = '.'))).reverse⟩
  else ""

/-- The filesystem: an association list from paths to byte contents. -/
abbrev FS := List (String × List Nat)

def fsLookup : FS → String → Option (List Nat)
  | [], _ => none
  | (q, c) :: rest, p => if q = p then some c else fsLookup rest p

/-- Model of `os.path.exists`. -/
def fsExists (fs : FS) (p : String) : Bool :=
  (fsLookup fs p).isSome

def fsErase (fs : FS) (p : String) : FS :=
  fs.filter (fun e => !(e.1 = p))

/-- Model of `open(path, "wb").write(content)`: create or silently
overwrite. -/
def fsSet (fs : FS) (p : String) (c : List Nat) : FS :=
  (p, c) :: fsErase fs p

/-- Observable side effects of a run. -/
inductive Event
  | httpGet (url : String)
  | fsWrite (path : String) (content : List Nat)
  | fsRemove (path : String)
  | existsCheck (path : String)
  | applyWallpaper (path : String)
  | sleep
deriving DecidableEq, Repr

/-- An HTTP response as `requests` exposes it: status code, the
`Content-Type` header, and the body bytes. -/
structure HttpResponse where
  status : Nat
  contentType : String
  body : List Nat
deriving DecidableEq, Repr

/-- The environment: everything outside the program. `http url` is
`.error ()` when the GET raises a `requests.RequestException`
(connection error or timeout); `wallpaperOk` is the boolean result of
`SystemParametersInfoW`; `writeFails`/`removeFails` say whether the
file write / `os.remove` raises `OSError` at a path. -/
structure Env where
  http : String → Except Unit HttpResponse
  guessExt : String → Option String
  cwd : String
  wallpaperOk : String → Bool
  writeFails : String → Bool
  removeFails : String → Bool

/-- The user's resolved source selection. -/
inductive Choice
  | localFile (path : String)
  | web (url : String)
deriving DecidableEq, Repr

/-- Model of `get_user_choice` (main.py lines 22-44), as a function of the two
prompt inputs. `none` models `sys.exit(1)`. A stripped first input
starting with `http://` or `https://` is an implicit web choice; the
second input is only consumed in the explicit `local`/`web` branches. -/
def get_user_choice (first second : String) : Option Choice :=
  let choice := pyStrip first
  if strStartsWith "http://" choice || strStartsWith "https://" choice then
    some (Choice.web choice)
  else
    let choice2 := pyLower choice
    if choice2 = "local" then some (Choice.localFile (pyStrip second))
    else if choice2 = "web" then some (Choice.web (pyStrip second))
    else none

/-- How `download_web_image` can fail: a `requests.RequestException`
(transport failure or `raise_for_status`), or an `OSError` while
writing the file. -/
inductive FetchErr
  | network
  | io
deriving DecidableEq, Repr

/-- Result of one `download_web_image` call: the events it performed,
the filesystem afterwards, and the returned path or the exception. -/
structure FetchOut where
  events : List Event
  fs : FS
  result : Except FetchErr String
deriving Repr

/-- Model of `download_web_image` (main.py lines 47-77): GET the URL
(`raise_for_status` raises on statuses 400-599, before any file is
touched), derive the filename, and write the full body to
`os.path.join(os.getcwd(), file_name)`, returning that path. Both
exception branches re-raise. -/
def download_web_image (env : Env) (fs : FS) (url : String) : FetchOut :=
  match env.http url with
  | .error _ => ⟨[Event.httpGet url], fs, .error .network⟩
  | .ok resp =>
    if 400 ≤ resp.status ∧ resp.status < 600 then
      ⟨[Event.httpGet url], fs, .error .network⟩
    else
      let fileName := deriveFileName env.guessExt url resp.contentType
      let savePath := pathJoin env.cwd fileName
      if env.writeFails savePath then
        ⟨[Event.httpGet url], fs, .error .io⟩
      else
        ⟨[Event.httpGet url, Event.fsWrite savePath resp.body],
         fsSet fs savePath resp.body, .ok savePath⟩

/-- Model of `set_wallpaper` (main.py lines 80-89): make the path
absolute, call
`SystemParametersInfoW(20, 0, abs_path, 3)`, and return its result.
Total: a platform-level failure is only the returned `false`, never an
exception. -/
def set_wallpaper (env : Env) (p : String) : List Event × Bool :=
  let ap := abspath env.cwd p
  ([Event.applyWallpaper ap], env.wallpaperOk ap)

/-- How one run of `main` ends. -/
inductive Outcome
  /-- Outcome of `SystemExit(1)` from `get_user_choice`, caught by no
  handler:
  the process exits with code 1. -/
  | invalidChoiceExit
  /-- caught by `except requests.RequestException` in `main`. -/
  | netError
  /-- caught by the `except Exception` catch-all in `main`. -/
  | otherError
  /-- the `Image file not found` early `return`. -/
  | missingFile
  /-- ran through the wallpaper call: its success flag, and whether the
  delete of the downloaded file failed (warning only). -/
  | done (success : Bool) (deleteWarned : Bool)
deriving DecidableEq, Repr

/-- Result of one whole run: event trace, final filesystem, outcome. -/
structure RunResult where
  events : List Event
  fs : FS
  outcome : Outcome
deriving Repr

/-- The tail of `main` from the existence check on (main.py lines
115-133): check
the resolved path exists, set the wallpaper, and delete the file only
when the call succeeded and it was downloaded; a failing `os.remove`
is downgraded to a warning. -/
def afterResolve (env : Env) (evs : List Event) (fs : FS) (p : String)
    (downloaded : Bool) : RunResult :=
  if fsExists fs p then
    let w := set_wallpaper env p
    let evs2 := evs ++ [Event.existsCheck p] ++ w.1
    if w.2 && downloaded then
      if env.removeFails p then
        ⟨evs2 ++ [Event.fsRemove p], fs, .done true true⟩
      else
        ⟨evs2 ++ [Event.fsRemove p], fsErase fs p, .done true false⟩
    else
      ⟨evs2, fs, .done w.2 false⟩
  else
    ⟨evs ++ [Event.existsCheck p], fs, .missingFile⟩

/-- Model of `main` (main.py lines 92-143): collect the choice (an invalid one
exits the process before the sleep), download when the source is web
(a `RequestException` is reported and aborts the flow; a write error
lands in the catch-all), then validate, apply and clean up. -/
def main (env : Env) (fs0 : FS) (first second : String) : RunResult :=
  match get_user_choice first second with
  | none => ⟨[], fs0, .invalidChoiceExit⟩
  | some (Choice.localFile p) => afterResolve env [Event.sleep] fs0 p false
  | some (Choice.web url) =>
    let f := download_web_image env fs0 url
    match f.result with
    | .error .network => ⟨Event.sleep :: f.events, f.fs, .netError⟩
    | .error .io => ⟨Event.sleep :: f.events, f.fs, .otherError⟩
    | .ok p => afterResolve env (Event.sleep :: f.events) f.fs p true

/-! ### Demo environments (shared by several witnesses) -/

/-- An environment where everything succeeds: any GET returns a 200
`image/png` response with body `[7, 7, 7]`. -/
def demoEnv : Env where
  http := fun _ => .ok ⟨200, "image/png", [7, 7, 7]⟩
  guessExt := fun _ => some ".png"
  cwd := "/home/user"
  wallpaperOk := fun _ => true
  writeFails := fun _ => false
  removeFails := fun _ => false

/-! ### Helper lemmas -/

theorem data_append (a b : String) : (a ++ b).data = a.data ++ b.data := rfl

theorem strStartsWith_iff (pre s : String) :
    strStartsWith pre s = true ↔ ∃ t, s.data = pre.data ++ t := by
  unfold strStartsWith
  rw [beq_iff_eq]
  constructor
  · intro h
    refine ⟨s.data.drop pre.data.length, ?_⟩
    conv_lhs => rw [← List.take_append_drop pre.data.length s.data]
    rw [h]
  · rintro ⟨t, ht⟩
    rw [ht]
    exact List.take_left pre.data t

theorem dropWhile_all_neg {α : Type} {p : α → Bool} {l : List α}
    (h : l.all (fun c => !p c) = true) : l.dropWhile p = l := by
  induction l with
  | nil => rfl
  | cons a t ih =>
    rw [List.all_cons, Bool.and_eq_true] at h
    rw [List.dropWhile_cons]
    simp only [Bool.not_eq_true'] at h
    rw [h.1, if_neg (by simp)]

theorem lstrip_of_pre {pre cs : List Char}
    (h : ∃ t, cs = pre ++ t) (hne : pre ≠ [])
    (hws : pre.all (fun c => !c.isWhitespace) = true) :
    cs.dropWhile Char.isWhitespace = cs := by
  obtain ⟨t, rfl⟩ := h
  cases pre with
  | nil => exact absurd rfl hne
  | cons c rest =>
    rw [List.all_cons, Bool.and_eq_true] at hws
    rw [List.cons_append, List.dropWhile_cons]
    simp only [Bool.not_eq_true'] at hws
    rw [hws.1, if_neg (by simp)]

theorem rstrip_of_pre {pre cs : List Char}
    (h : ∃ t, cs = pre ++ t)
    (hws : pre.all (fun c => !c.isWhitespace) = true) :
    ∃ t, (cs.reverse.dropWhile Char.isWhitespace).reverse = pre ++ t := by
  obtain ⟨t, rfl⟩ := h
  rw [List.reverse_append, List.dropWhile_append]
  by_cases he : (t.reverse.dropWhile Char.isWhitespace).isEmpty = true
  · rw [if_pos he]
    have hall : pre.reverse.all (fun c => !c.isWhitespace) = true := by
      rw [List.all_reverse]; exact hws
    rw [dropWhile_all_neg hall, List.reverse_reverse]
    exact ⟨[], (List.append_nil pre).symm⟩
  · rw [if_neg he, List.reverse_append, List.reverse_reverse]
    exact ⟨(t.reverse.dropWhile Char.isWhitespace).reverse, rfl⟩

theorem strStartsWith_pyStrip {pre u : String} (h : strStartsWith pre u = true)
    (hne : pre.data ≠ []) (hws : pre.data.all (fun c => !c.isWhitespace) = true) :
    strStartsWith pre (pyStrip u) = true := by
  rw [strStartsWith_iff] at h ⊢
  show ∃ t, ((u.data.dropWhile Char.isWhitespace).reverse.dropWhile Char.isWhitespace).reverse
      = pre.data ++ t
  rw [lstrip_of_pre h hne hws]
  exact rstrip_of_pre h hws

theorem isAbsPath_append (a b : String) (h : isAbsPath a = true) :
    isAbsPath (a ++ b) = true := by
  unfold isAbsPath at h ⊢
  rw [data_append]
  rcases ha : a.data with _ | ⟨c, _ | ⟨c2, rest⟩⟩ <;> rw [ha] at h
  · simp at h
  · rcases hb : b.data with _ | ⟨d, bs⟩
    · simpa using h
    · simp only [List.singleton_append]
      simp only [Bool.or_eq_true] at h ⊢
      exact Or.inl h
  · simp only [List.cons_append]
    simp only [Bool.or_eq_true] at h ⊢
    exact h

theorem isAbsPath_pathJoin (a b : String) (h : isAbsPath a = true) :
    isAbsPath (pathJoin a b) = true :=
  isAbsPath_append (a ++ "/") b (isAbsPath_append a "/" h)

/-- A failed GET or an error status: `download_web_image` raises the
`RequestException` before touching the filesystem. -/
theorem download_err (env : Env) (fs : FS) (url : String)
    (herr : env.http url = .error () ∨
      ∃ resp, env.http url = .ok resp ∧ 400 ≤ resp.status ∧ resp.status < 600) :
    download_web_image env fs url = ⟨[Event.httpGet url], fs, .error .network⟩ := by
  unfold download_web_image
  rcases herr with h | ⟨resp, hr, h4, h6⟩
  · simp only [h]
  · simp only [hr]
    rw [if_pos ⟨h4, h6⟩]

theorem fsLookup_fsSet (fs : FS) (p : String) (c : List Nat) :
    fsLookup (fsSet fs p c) p = some c := by
  simp [fsSet, fsLookup]

theorem fsExists_fsSet (fs : FS) (p : String) (c : List Nat) :
    fsExists (fsSet fs p c) p = true := by
  simp [fsExists, fsLookup_fsSet]

theorem fsLookup_fsErase (fs : FS) (p : String) :
    fsLookup (fsErase fs p) p = none := by
  induction fs with
  | nil => rfl
  | cons e rest ih =>
    by_cases he : e.1 = p
    · simpa [fsErase, he] using ih
    · simpa [fsErase, fsLookup, he] using ih

theorem fsExists_fsErase (fs : FS) (p : String) :
    fsExists (fsErase fs p) p = false := by
  simp [fsExists, fsLookup_fsErase]

/-- A successful `download_web_image` call, characterised: the response
was ok with a non-error status, the returned path is the join of the
cwd and the derived filename, and the body was written there. -/
theorem download_ok (env : Env) (fs : FS) (url sp : String)
    (h : (download_web_image env fs url).result = .ok sp) :
    ∃ resp, env.http url = .ok resp ∧ ¬(400 ≤ resp.status ∧ resp.status < 600) ∧
      sp = pathJoin env.cwd (deriveFileName env.guessExt url resp.contentType) ∧
      env.writeFails sp = false ∧
      download_web_image env fs url =
        ⟨[Event.httpGet url, Event.fsWrite sp resp.body], fsSet fs sp resp.body, .ok sp⟩ := by
  rcases hh : env.http url with e | resp
  · simp [download_web_image, hh] at h
  · by_cases hst : 400 ≤ resp.status ∧ resp.status < 600
    · simp [download_web_image, hh, if_pos hst] at h
    · by_cases hw :
          env.writeFails (pathJoin env.cwd (deriveFileName env.guessExt url resp.contentType)) = true
      · simp [download_web_image, hh, if_neg hst, hw] at h
      · simp [download_web_image, hh, if_neg hst, hw] at h
        refine ⟨resp, rfl, hst, h.symm, ?_, ?_⟩
        · rw [h] at hw
          simpa using hw
        · rw [← h]
          simp [download_web_image, hh, if_neg hst, hw]

/-! ### Claim theorems -/

/-- C3: entering a raw URL (a string starting with `http://` or
`https://`) at the first prompt yields exactly the same parsed choice —
and hence the same downstream run — as entering the token `web` and
then that URL at the URL prompt. -/
theorem C3_raw_url_routing (u s : String)
    (h : strStartsWith "http://" u = true ∨ strStartsWith "https://" u = true) :
    get_user_choice u s = get_user_choice "web" u := by
  have hc : (strStartsWith "http://" (pyStrip u) || strStartsWith "https://" (pyStrip u)) = true := by
    rcases h with h | h
    · simp [strStartsWith_pyStrip h (by decide) (by decide)]
    · simp [strStartsWith_pyStrip h (by decide) (by decide)]
  simp only [get_user_choice, hc]
  rfl

theorem C3_raw_url_routing_witness :
    get_user_choice "https://example.com/pic.png" "ignored" =
      get_user_choice "web" "https://example.com/pic.png" :=
  C3_raw_url_routing "https://example.com/pic.png" "ignored" (Or.inr (by decide))

/-- C7: `set_wallpaper` resolves its argument to an absolute path,
invokes the platform call on exactly that path, and returns the
platform call's success flag unchanged; it is a total function, so a
platform-level failure is reported only through the returned boolean,
never as an exception. -/
theorem C7_set_wallpaper_contract (env : Env) (p : String) :
    set_wallpaper env p =
      ([Event.applyWallpaper (abspath env.cwd p)], env.wallpaperOk (abspath env.cwd p)) := rfl

/-- C10: when the GET errors or returns a 4xx/5xx status,
`download_web_image` raises the network error before the output file is
opened: no write event happens and the filesystem is unchanged. -/
theorem C10_no_file_on_network_error (env : Env) (fs : FS) (url : String)
    (herr : env.http url = .error () ∨
      ∃ resp, env.http url = .ok resp ∧ 400 ≤ resp.status ∧ resp.status < 600) :
    (download_web_image env fs url).result = .error FetchErr.network ∧
    (download_web_image env fs url).fs = fs ∧
    ∀ p c, Event.fsWrite p c ∉ (download_web_image env fs url).events := by
  rw [download_err env fs url herr]
  refine ⟨rfl, rfl, ?_⟩
  intro p c hmem
  simp at hmem

theorem C10_no_file_on_network_error_witness :
    ((download_web_image { demoEnv with http := fun _ => .error () } [] "http://a/b.png").result
        = .error FetchErr.network) ∧
    (download_web_image { demoEnv with http := fun _ => .error () } [] "http://a/b.png").fs = [] ∧
    ∀ p c, Event.fsWrite p c ∉
      (download_web_image { demoEnv with http := fun _ => .error () } [] "http://a/b.png").events :=
  C10_no_file_on_network_error _ _ _ (Or.inl rfl)

/-- C8: on a successful fetch, `download_web_image` writes the full
response body to the joined cwd/filename path (creating or silently
overwriting: the lookup afterwards returns exactly the new body
whatever the previous filesystem held) and returns that path, which is
absolute whenever the cwd is. -/
theorem C8_successful_fetch (env : Env) (fs : FS) (url : String) (resp : HttpResponse)
    (hok : env.http url = .ok resp)
    (hst : ¬(400 ≤ resp.status ∧ resp.status < 600))
    (hw : env.writeFails (pathJoin env.cwd (deriveFileName env.guessExt url resp.contentType))
            = false) :
    (download_web_image env fs url).result =
      .ok (pathJoin env.cwd (deriveFileName env.guessExt url resp.contentType)) ∧
    (download_web_image env fs url).fs =
      fsSet fs (pathJoin env.cwd (deriveFileName env.guessExt url resp.contentType)) resp.body ∧
    fsLookup (download_web_image env fs url).fs
      (pathJoin env.cwd (deriveFileName env.guessExt url resp.contentType)) = some resp.body ∧
    (isAbsPath env.cwd = true →
      isAbsPath (pathJoin env.cwd (deriveFileName env.guessExt url resp.contentType)) = true) := by
  have hd : download_web_image env fs url =
      ⟨[Event.httpGet url,
        Event.fsWrite (pathJoin env.cwd (deriveFileName env.guessExt url resp.contentType))
          resp.body],
       fsSet fs (pathJoin env.cwd (deriveFileName env.guessExt url resp.contentType)) resp.body,
       .ok (pathJoin env.cwd (deriveFileName env.guessExt url resp.contentType))⟩ := by
    simp [download_web_image, hok, if_neg hst, hw]
  rw [hd]
  exact ⟨rfl, rfl, fsLookup_fsSet _ _ _, fun hc => isAbsPath_pathJoin _ _ hc⟩

theorem C8_successful_fetch_witness :
    (download_web_image demoEnv [("/home/user/b.png", [1])] "http://a/b.png").result
        = .ok "/home/user/b.png" ∧
    (download_web_image demoEnv [("/home/user/b.png", [1])] "http://a/b.png").fs
        = fsSet [("/home/user/b.png", [1])] "/home/user/b.png" [7, 7, 7] ∧
    fsLookup (download_web_image demoEnv [("/home/user/b.png", [1])] "http://a/b.png").fs
        "/home/user/b.png" = some [7, 7, 7] ∧
    (isAbsPath demoEnv.cwd = true → isAbsPath "/home/user/b.png" = true) :=
  C8_successful_fetch demoEnv [("/home/user/b.png", [1])] "http://a/b.png"
    ⟨200, "image/png", [7, 7, 7]⟩ rfl (by decide) rfl

/-- C2, counterexample: for the URL `https://example.com/.` the last
path segment is `.`, which contains a dot, so the Fetcher keeps it as
the filename — and `.` has no non-empty extension (nothing follows its
last dot). -/
theorem C2_counterexample :
    deriveFileName (fun _ => some ".png") "https://example.com/." "image/png" = "." ∧
    extAfterLastDot "." = "" := by
  exact ⟨rfl, rfl⟩

/-- C2, amended: the derived filename always contains a dot (not
necessarily a non-empty extension): it is the last path segment of the
URL when that is non-empty and contains a dot; otherwise it is
`downloaded_wallpaper` plus an extension guessed from the cleaned
Content-Type (any extension `mimetypes.guess_extension` returns starts
with a dot), defaulting to `.jpg` when the guess fails. -/
theorem C2_amended_filename_has_dot (guessExt : String → Option String)
    (hg : ∀ ct e, guessExt ct = some e → e.data ≠ [] → e.data.head? = some '.')
    (url contentType : String) :
    (deriveFileName guessExt url contentType).data.contains '.' = true ∧
    ((basenameStr (urlparsePath url)).data ≠ [] →
      (basenameStr (urlparsePath url)).data.contains '.' = true →
      deriveFileName guessExt url contentType = basenameStr (urlparsePath url)) ∧
    ((basenameStr (urlparsePath url)).data = [] ∨
        (basenameStr (urlparsePath url)).data.contains '.' = false →
      ∃ ext, deriveFileName guessExt url contentType = "downloaded_wallpaper" ++ ext ∧
        ext.data.head? = some '.') ∧
    ((basenameStr (urlparsePath url)).data = [] ∨
        (basenameStr (urlparsePath url)).data.contains '.' = false →
      guessExt (ctClean contentType) = none →
      deriveFileName guessExt url contentType = "downloaded_wallpaper.jpg") := by
  by_cases hcond : (basenameStr (urlparsePath url)).data = []
      ∨ (basenameStr (urlparsePath url)).data.contains '.' = false
  · have hsynth : ∀ ext : String, ext.data.head? = some '.' →
        (("downloaded_wallpaper" ++ ext : String)).data.contains '.' = true := by
      intro ext hext
      rcases he : ext.data with _ | ⟨c, t⟩
      · rw [he] at hext; simp at hext
      · rw [he] at hext
        simp only [List.head?_cons, Option.some.injEq] at hext
        rw [data_append, he, hext]
        rw [List.elem_iff]
        exact List.mem_append_right _ (List.mem_cons_self _ _)
    have hdotfalse : (basenameStr (urlparsePath url)).data ≠ [] →
        ¬((basenameStr (urlparsePath url)).data.contains '.' = true) := by
      intro h1 h2
      rcases hcond with h | h
      · exact h1 h
      · rw [h] at h2; exact absurd h2 (by simp)
    have hc' : (decide ((basenameStr (urlparsePath url)).data = [])
        || !((basenameStr (urlparsePath url)).data.contains '.')) = true := by
      rcases hcond with h | h
      · rw [decide_eq_true h]; rfl
      · rw [h]; simp
    rcases hge : guessExt (ctClean contentType) with _ | e
    · have hd : deriveFileName guessExt url contentType = "downloaded_wallpaper" ++ ".jpg" := by
        simp only [deriveFileName]
        rw [hc', if_pos rfl, hge]
      refine ⟨?_, ?_, ?_, ?_⟩
      · rw [hd]; exact hsynth ".jpg" rfl
      · intro h1 h2; exact absurd h2 (hdotfalse h1)
      · intro _; exact ⟨".jpg", hd, rfl⟩
      · intro _ _; rw [hd]; rfl
    · by_cases hee : e.data = []
      · have hd : deriveFileName guessExt url contentType = "downloaded_wallpaper" ++ ".jpg" := by
          simp only [deriveFileName]
          rw [hc', if_pos rfl, hge]
          show ("downloaded_wallpaper" ++ (if e.data = [] then ".jpg" else e) : String)
              = "downloaded_wallpaper" ++ ".jpg"
          rw [if_pos hee]
        refine ⟨?_, ?_, ?_, ?_⟩
        · rw [hd]; exact hsynth ".jpg" rfl
        · intro h1 h2; exact absurd h2 (hdotfalse h1)
        · intro _; exact ⟨".jpg", hd, rfl⟩
        · intro _ hnone; exact Option.noConfusion hnone
      · have hd : deriveFileName guessExt url contentType = "downloaded_wallpaper" ++ e := by
          simp only [deriveFileName]
          rw [hc', if_pos rfl, hge]
          show ("downloaded_wallpaper" ++ (if e.data = [] then ".jpg" else e) : String)
              = "downloaded_wallpaper" ++ e
          rw [if_neg hee]
        have hhead : e.data.head? = some '.' := hg _ _ hge hee
        refine ⟨?_, ?_, ?_, ?_⟩
        · rw [hd]; exact hsynth e hhead
        · intro h1 h2; exact absurd h2 (hdotfalse h1)
        · intro _; exact ⟨e, hd, hhead⟩
        · intro _ hnone; exact Option.noConfusion hnone
  · push_neg at hcond
    obtain ⟨h1, h2⟩ := hcond
    have h2' : (basenameStr (urlparsePath url)).data.contains '.' = true := by
      cases hb : (basenameStr (urlparsePath url)).data.contains '.'
      · exact absurd hb h2
      · rfl
    have hcf : (decide ((basenameStr (urlparsePath url)).data = [])
        || !((basenameStr (urlparsePath url)).data.contains '.')) = false := by
      rw [h2', decide_eq_false h1]
      rfl
    have hd : deriveFileName guessExt url contentType = basenameStr (urlparsePath url) := by
      simp only [deriveFileName]
      rw [hcf, if_neg (by simp)]
    refine ⟨by rw [hd]; exact h2', fun _ _ => hd, ?_, ?_⟩
    · intro hc
      rcases hc with h | h
      · exact absurd h h1
      · rw [h2'] at h; exact absurd h (by simp)
    · intro hc
      rcases hc with h | h
      · exact absurd h h1
      · rw [h2'] at h; exact absurd h (by simp)

theorem C2_amended_filename_has_dot_witness :
    (deriveFileName (fun _ => some ".png") "https://example.com/dir/"
        "image/png; charset=utf-8").data.contains '.' = true ∧
    ((basenameStr (urlparsePath "https://example.com/dir/")).data ≠ [] →
      (basenameStr (urlparsePath "https://example.com/dir/")).data.contains '.' = true →
      deriveFileName (fun _ => some ".png") "https://example.com/dir/" "image/png; charset=utf-8"
        = basenameStr (urlparsePath "https://example.com/dir/")) ∧
    ((basenameStr (urlparsePath "https://example.com/dir/")).data = [] ∨
        (basenameStr (urlparsePath "https://example.com/dir/")).data.contains '.' = false →
      ∃ ext, deriveFileName (fun _ => some ".png") "https://example.com/dir/"
          "image/png; charset=utf-8" = "downloaded_wallpaper" ++ ext ∧
        ext.data.head? = some '.') ∧
    ((basenameStr (urlparsePath "https://example.com/dir/")).data = [] ∨
        (basenameStr (urlparsePath "https://example.com/dir/")).data.contains '.' = false →
      (fun _ : String => some ".png") (ctClean "image/png; charset=utf-8") = none →
      deriveFileName (fun _ => some ".png") "https://example.com/dir/" "image/png; charset=utf-8"
        = "downloaded_wallpaper.jpg") :=
  C2_amended_filename_has_dot (fun _ => some ".png")
    (by
      intro ct e h hne
      have he : e = ".png" := by
        have := h
        simp at this
        exact this.symm
      rw [he]
      rfl)
    "https://example.com/dir/" "image/png; charset=utf-8"

/-- C4, counterexample: the input `LOCAL` is neither the literal token
`local` nor `web` and does not start with a scheme, yet the program
does not exit: `get_user_choice` lowercases the stripped input and
proceeds with the local flow (here ending in the missing-file path,
not in `SystemExit`). -/
theorem C4_counterexample :
    ("LOCAL" : String) ≠ "local" ∧ ("LOCAL" : String) ≠ "web" ∧
    strStartsWith "http://" "LOCAL" = false ∧ strStartsWith "https://" "LOCAL" = false ∧
    get_user_choice "LOCAL" "p" = some (Choice.localFile "p") ∧
    (main demoEnv [] "LOCAL" "p").outcome ≠ Outcome.invalidChoiceExit := by
  refine ⟨by decide, by decide, by decide, by decide, rfl, by decide⟩

/-- C4, amended: for every first input whose *stripped* form does not
start with `http://`/`https://` and whose stripped, *lowercased* form
is neither `local` nor `web`, the run exits with the uncaught
`SystemExit(1)` (code 1) having performed no event at all — no network
request and no filesystem operation — and leaving the filesystem
untouched. -/
theorem C4_amended_invalid_choice_exits (env : Env) (fs0 : FS) (first second : String)
    (h1 : strStartsWith "http://" (pyStrip first) = false)
    (h2 : strStartsWith "https://" (pyStrip first) = false)
    (h3 : pyLower (pyStrip first) ≠ "local")
    (h4 : pyLower (pyStrip first) ≠ "web") :
    main env fs0 first second = ⟨[], fs0, Outcome.invalidChoiceExit⟩ := by
  have hgc : get_user_choice first second = none := by
    simp [get_user_choice, h1, h2, h3, h4]
  simp [main, hgc]

theorem C4_amended_invalid_choice_exits_witness :
    main demoEnv [] "banana" "x" = ⟨[], [], Outcome.invalidChoiceExit⟩ :=
  C4_amended_invalid_choice_exits demoEnv [] "banana" "x"
    (by decide) (by decide) (by decide) (by decide)

/-- A failing `download_web_image` call performed no write: its events
are just the GET and the filesystem is returned unchanged. -/
theorem download_err_shape (env : Env) (fs : FS) (url : String) (e : FetchErr)
    (h : (download_web_image env fs url).result = .error e) :
    download_web_image env fs url = ⟨[Event.httpGet url], fs, .error e⟩ := by
  rcases hh : env.http url with u | resp
  · have hd : download_web_image env fs url = ⟨[Event.httpGet url], fs, .error .network⟩ := by
      simp [download_web_image, hh]
    rw [hd] at h ⊢
    simp only [Except.error.injEq] at h
    rw [h]
  · by_cases hst : 400 ≤ resp.status ∧ resp.status < 600
    · have hd : download_web_image env fs url = ⟨[Event.httpGet url], fs, .error .network⟩ := by
        simp [download_web_image, hh, if_pos hst]
      rw [hd] at h ⊢
      simp only [Except.error.injEq] at h
      rw [h]
    · by_cases hw : env.writeFails
          (pathJoin env.cwd (deriveFileName env.guessExt url resp.contentType)) = true
      · have hd : download_web_image env fs url = ⟨[Event.httpGet url], fs, .error .io⟩ := by
          simp [download_web_image, hh, if_neg hst, hw]
        rw [hd] at h ⊢
        simp only [Except.error.injEq] at h
        rw [h]
      · simp [download_web_image, hh, if_neg hst, hw] at h

/-- C5: when the GET errors, times out, or returns an error status
(4xx/5xx), the Fetcher raises the network error, the run ends in the
network-error report, the wallpaper call is never made, and the
filesystem is untouched. -/
theorem C5_network_error_aborts (env : Env) (fs0 : FS) (first second url : String)
    (hc : get_user_choice first second = some (Choice.web url))
    (herr : env.http url = .error () ∨
      ∃ resp, env.http url = .ok resp ∧ 400 ≤ resp.status ∧ resp.status < 600) :
    (download_web_image env fs0 url).result = .error FetchErr.network ∧
    (main env fs0 first second).outcome = Outcome.netError ∧
    (∀ p, Event.applyWallpaper p ∉ (main env fs0 first second).events) ∧
    (main env fs0 first second).fs = fs0 := by
  have hd := download_err env fs0 url herr
  have hm : main env fs0 first second = ⟨[Event.sleep, Event.httpGet url], fs0, .netError⟩ := by
    simp [main, hc, hd]
  rw [hm, hd]
  refine ⟨rfl, rfl, ?_, rfl⟩
  intro p hp
  simp at hp

theorem C5_network_error_aborts_witness :
    ((download_web_image { demoEnv with http := fun _ => .error () } [] "http://a/b.png").result
        = .error FetchErr.network) ∧
    (main { demoEnv with http := fun _ => .error () } [] "web" "http://a/b.png").outcome
        = Outcome.netError ∧
    (∀ p, Event.applyWallpaper p ∉
      (main { demoEnv with http := fun _ => .error () } [] "web" "http://a/b.png").events) ∧
    (main { demoEnv with http := fun _ => .error () } [] "web" "http://a/b.png").fs = [] :=
  C5_network_error_aborts _ [] "web" "http://a/b.png" "http://a/b.png" rfl (Or.inl rfl)

/-- C6: a resolved path that does not exist makes `afterResolve` (the
part of `main` from the validation on) report the missing file and
stop: normal termination, no wallpaper call, no cleanup, filesystem
unchanged — in particular for every user-supplied local path. -/
theorem C6_missing_file_stops (env : Env) (fs0 : FS) (p : String)
    (hne : fsExists fs0 p = false) :
    (∀ evs d, afterResolve env evs fs0 p d =
        ⟨evs ++ [Event.existsCheck p], fs0, Outcome.missingFile⟩) ∧
    (∀ first second, get_user_choice first second = some (Choice.localFile p) →
      (main env fs0 first second).outcome = Outcome.missingFile ∧
      (∀ q, Event.applyWallpaper q ∉ (main env fs0 first second).events) ∧
      (∀ q, Event.fsRemove q ∉ (main env fs0 first second).events) ∧
      (main env fs0 first second).fs = fs0) := by
  have har : ∀ evs d, afterResolve env evs fs0 p d =
      ⟨evs ++ [Event.existsCheck p], fs0, Outcome.missingFile⟩ := by
    intro evs d
    simp [afterResolve, hne]
  refine ⟨har, ?_⟩
  intro first second hc
  have hm : main env fs0 first second =
      ⟨[Event.sleep, Event.existsCheck p], fs0, Outcome.missingFile⟩ := by
    simp [main, hc, har [Event.sleep] false]
  rw [hm]
  refine ⟨rfl, ?_, ?_, rfl⟩
  · intro q hq; simp at hq
  · intro q hq; simp at hq

theorem C6_missing_file_stops_witness :
    (main demoEnv [] "local" "/nope.png").outcome = Outcome.missingFile ∧
    (∀ q, Event.applyWallpaper q ∉ (main demoEnv [] "local" "/nope.png").events) ∧
    (∀ q, Event.fsRemove q ∉ (main demoEnv [] "local" "/nope.png").events) ∧
    (main demoEnv [] "local" "/nope.png").fs = [] :=
  (C6_missing_file_stops demoEnv [] "/nope.png" rfl).2 "local" "/nope.png" rfl

/-- C9: when the wallpaper was set from a downloaded file and the
deletion of that file fails, the failure is only a warning: the run
still completes through the success path (outcome `done true true`)
and the file simply stays on disk. -/
theorem C9_delete_failure_warns_only (env : Env) (fs0 : FS) (first second url sp : String)
    (hc : get_user_choice first second = some (Choice.web url))
    (hfetch : (download_web_image env fs0 url).result = .ok sp)
    (hsucc : env.wallpaperOk (abspath env.cwd sp) = true)
    (hrf : env.removeFails sp = true) :
    (main env fs0 first second).outcome = Outcome.done true true ∧
    (main env fs0 first second).fs = (download_web_image env fs0 url).fs ∧
    fsExists (main env fs0 first second).fs sp = true := by
  obtain ⟨resp, hh, hst, hsp, hw, hdl⟩ := download_ok env fs0 url sp hfetch
  have hm : main env fs0 first second =
      afterResolve env (Event.sleep :: [Event.httpGet url, Event.fsWrite sp resp.body])
        (fsSet fs0 sp resp.body) sp true := by
    simp [main, hc, hdl]
  have hex : fsExists (fsSet fs0 sp resp.body) sp = true := fsExists_fsSet _ _ _
  have ho : (afterResolve env (Event.sleep :: [Event.httpGet url, Event.fsWrite sp resp.body])
        (fsSet fs0 sp resp.body) sp true).outcome = Outcome.done true true ∧
      (afterResolve env (Event.sleep :: [Event.httpGet url, Event.fsWrite sp resp.body])
        (fsSet fs0 sp resp.body) sp true).fs = fsSet fs0 sp resp.body := by
    simp [afterResolve, hex, set_wallpaper, hsucc, hrf]
  rw [hm]
  refine ⟨ho.1, ?_, ?_⟩
  · rw [ho.2, hdl]
  · rw [ho.2]; exact hex

theorem C9_delete_failure_warns_only_witness :
    (main { demoEnv with removeFails := fun _ => true } [] "web" "http://a/b.png").outcome
        = Outcome.done true true ∧
    (main { demoEnv with removeFails := fun _ => true } [] "web" "http://a/b.png").fs
        = (download_web_image { demoEnv with removeFails := fun _ => true } []
            "http://a/b.png").fs ∧
    fsExists (main { demoEnv with removeFails := fun _ => true } [] "web" "http://a/b.png").fs
        "/home/user/b.png" = true :=
  C9_delete_failure_warns_only _ [] "web" "http://a/b.png" "http://a/b.png"
    "/home/user/b.png" rfl rfl rfl rfl

/-- C1: the cleanup invariant of `main`. The remove operation is
invoked on a path exactly when that path was produced by a successful
download AND the wallpaper call on it reported success; in a local-file
run no remove is ever invoked and the filesystem is returned untouched;
after a successful cleanup (the remove itself not failing) the
downloaded file is absent from disk, and when the wallpaper call fails
the downloaded file is still present. -/
theorem C1_cleanup_invariant (env : Env) (fs0 : FS) (first second : String) :
    (∀ p, Event.fsRemove p ∈ (main env fs0 first second).events →
      ∃ url, get_user_choice first second = some (Choice.web url) ∧
        (download_web_image env fs0 url).result = Except.ok p ∧
        env.wallpaperOk (abspath env.cwd p) = true) ∧
    (∀ url p, get_user_choice first second = some (Choice.web url) →
      (download_web_image env fs0 url).result = Except.ok p →
      env.wallpaperOk (abspath env.cwd p) = true →
      Event.fsRemove p ∈ (main env fs0 first second).events ∧
      (env.removeFails p = false → fsExists (main env fs0 first second).fs p = false)) ∧
    (∀ url p, get_user_choice first second = some (Choice.web url) →
      (download_web_image env fs0 url).result = Except.ok p →
      env.wallpaperOk (abspath env.cwd p) = false →
      (∀ q, Event.fsRemove q ∉ (main env fs0 first second).events) ∧
      fsExists (main env fs0 first second).fs p = true) ∧
    (∀ p, get_user_choice first second = some (Choice.localFile p) →
      (∀ q, Event.fsRemove q ∉ (main env fs0 first second).events) ∧
      (main env fs0 first second).fs = fs0) := by
  rcases hgc : get_user_choice first second with _ | c
  · have hm : main env fs0 first second = ⟨[], fs0, .invalidChoiceExit⟩ := by
      simp [main, hgc]
    rw [hm]
    refine ⟨?_, ?_, ?_, ?_⟩
    · intro p hp; simp at hp
    · intro url p hc'; exact absurd hc' (by simp)
    · intro url p hc'; exact absurd hc' (by simp)
    · intro p hc'; exact absurd hc' (by simp)
  · cases c with
    | localFile p0 =>
      have hm : main env fs0 first second = afterResolve env [Event.sleep] fs0 p0 false := by
        simp [main, hgc]
      have hfs : (afterResolve env [Event.sleep] fs0 p0 false).fs = fs0 := by
        by_cases hex : fsExists fs0 p0 = true
        · simp [afterResolve, hex]
        · simp [afterResolve, hex]
      have hnorem : ∀ q, Event.fsRemove q ∉ (afterResolve env [Event.sleep] fs0 p0 false).events := by
        intro q hq
        by_cases hex : fsExists fs0 p0 = true
        · simp [afterResolve, hex, set_wallpaper] at hq
        · simp [afterResolve, hex] at hq
      rw [hm]
      refine ⟨?_, ?_, ?_, ?_⟩
      · intro p hp; exact absurd hp (hnorem p)
      · intro url p hc'; exact absurd hc' (by simp)
      · intro url p hc'; exact absurd hc' (by simp)
      · intro p hc'
        have hpp : p0 = p := by simpa using hc'
        subst hpp
        exact ⟨hnorem, hfs⟩
    | web url0 =>
      rcases hres : (download_web_image env fs0 url0).result with e | sp
      · -- the download raised: no remove anywhere, flow aborted
        have hf := download_err_shape env fs0 url0 e hres
        have hm : ∀ o, main env fs0 first second =
            ⟨[Event.sleep, Event.httpGet url0], fs0, o⟩ →
            (∀ q, Event.fsRemove q ∉ (main env fs0 first second).events) ∧
            (main env fs0 first second).fs = fs0 := by
          intro o ho
          rw [ho]
          exact ⟨by intro q hq; simp at hq, rfl⟩
        have hmain : (∀ q, Event.fsRemove q ∉ (main env fs0 first second).events) ∧
            (main env fs0 first second).fs = fs0 := by
          cases e with
          | network => exact hm Outcome.netError (by simp [main, hgc, hf])
          | io => exact hm Outcome.otherError (by simp [main, hgc, hf])
        refine ⟨?_, ?_, ?_, ?_⟩
        · intro p hp; exact absurd hp (hmain.1 p)
        · intro url p hc' hres'
          have huu : url0 = url := by simpa using hc'
          subst huu
          rw [hres] at hres'
          exact absurd hres' (by simp)
        · intro url p hc' hres'
          have huu : url0 = url := by simpa using hc'
          subst huu
          rw [hres] at hres'
          exact absurd hres' (by simp)
        · intro p hc'; exact absurd hc' (by simp)
      · -- successful download: the file was written at sp
        obtain ⟨resp, hh, hst, hsp, hw, hdl⟩ := download_ok env fs0 url0 sp hres
        have hm : main env fs0 first second =
            afterResolve env [Event.sleep, Event.httpGet url0, Event.fsWrite sp resp.body]
              (fsSet fs0 sp resp.body) sp true := by
          simp [main, hgc, hdl]
        have hex : fsExists (fsSet fs0 sp resp.body) sp = true := fsExists_fsSet _ _ _
        rw [hm]
        by_cases hsucc : env.wallpaperOk (abspath env.cwd sp) = true
        · -- wallpaper set: the remove is invoked on sp
          have hwin : Event.fsRemove sp ∈
              (afterResolve env [Event.sleep, Event.httpGet url0, Event.fsWrite sp resp.body]
                (fsSet fs0 sp resp.body) sp true).events := by
            by_cases hrf : env.removeFails sp = true
            · simp [afterResolve, hex, set_wallpaper, hsucc, hrf]
            · simp [afterResolve, hex, set_wallpaper, hsucc, hrf]
          have honly : ∀ q, Event.fsRemove q ∈
              (afterResolve env [Event.sleep, Event.httpGet url0, Event.fsWrite sp resp.body]
                (fsSet fs0 sp resp.body) sp true).events → q = sp := by
            intro q hq
            by_cases hrf : env.removeFails sp = true
            · simp [afterResolve, hex, set_wallpaper, hsucc, hrf] at hq; exact hq
            · simp [afterResolve, hex, set_wallpaper, hsucc, hrf] at hq; exact hq
          refine ⟨?_, ?_, ?_, ?_⟩
          · intro p hp
            have hps : p = sp := honly p hp
            subst hps
            exact ⟨url0, rfl, hres, hsucc⟩
          · intro url p hc' hres' _
            have huu : url0 = url := by simpa using hc'
            subst huu
            rw [hres] at hres'
            have hps : sp = p := by simpa using hres'
            subst hps
            refine ⟨hwin, ?_⟩
            intro hrf
            have hfse : (afterResolve env
                [Event.sleep, Event.httpGet url0, Event.fsWrite sp resp.body]
                (fsSet fs0 sp resp.body) sp true).fs = fsErase (fsSet fs0 sp resp.body) sp := by
              simp [afterResolve, hex, set_wallpaper, hsucc, hrf]
            rw [hfse]
            exact fsExists_fsErase _ _
          · intro url p hc' hres' hfail
            have huu : url0 = url := by simpa using hc'
            subst huu
            rw [hres] at hres'
            have hps : sp = p := by simpa using hres'
            subst hps
            rw [hfail] at hsucc
            exact absurd hsucc (by simp)
          · intro p hc'; exact absurd hc' (by simp)
        · -- wallpaper call failed: no remove, the file stays
          have hsuccf : env.wallpaperOk (abspath env.cwd sp) = false := by
            cases hb : env.wallpaperOk (abspath env.cwd sp)
            · rfl
            · exact absurd hb hsucc
          have har : afterResolve env
              [Event.sleep, Event.httpGet url0, Event.fsWrite sp resp.body]
              (fsSet fs0 sp resp.body) sp true =
              ⟨[Event.sleep, Event.httpGet url0, Event.fsWrite sp resp.body,
                Event.existsCheck sp, Event.applyWallpaper (abspath env.cwd sp)],
               fsSet fs0 sp resp.body, .done false false⟩ := by
            simp [afterResolve, hex, set_wallpaper, hsuccf]
          rw [har]
          refine ⟨?_, ?_, ?_, ?_⟩
          · intro p hp; simp at hp
          · intro url p hc' hres' hsucc'
            have huu : url0 = url := by simpa using hc'
            subst huu
            rw [hres] at hres'
            have hps : sp = p := by simpa using hres'
            subst hps
            rw [hsucc'] at hsuccf
            exact absurd hsuccf (by simp)
          · intro url p hc' hres' _
            have huu : url0 = url := by simpa using hc'
            subst huu
            rw [hres] at hres'
            have hps : sp = p := by simpa using hres'
            subst hps
            exact ⟨by intro q hq; simp at hq, hex⟩
          · intro p hc'; exact absurd hc' (by simp)

theorem C1_cleanup_invariant_witness :
    Event.fsRemove "/home/user/b.png" ∈ (main demoEnv [] "web" "http://a/b.png").events ∧
    fsExists (main demoEnv [] "web" "http://a/b.png").fs "/home/user/b.png" = false := by
  have h := C1_cleanup_invariant demoEnv [] "web" "http://a/b.png"
  have h2 := h.2.1 "http://a/b.png" "/home/user/b.png" rfl rfl rfl
  exact ⟨h2.1, h2.2 rfl⟩

end Wallpaper
